import Mathlib

/-!
Verification development for the genanki-rs-rev repository: a shallow
embedding of its template requirement analysis, card generation, note and
package construction, and database/archive serialization, with theorems
settling the specification claims.

The repository contains two parallel implementation generations:
the legacy API (src/note.rs, src/model.rs, src/package.rs) and the
refactored core/export API (src/core/note.rs, src/export/package.rs,
crates/genanki-storage).  Both are embedded here where a claim cites them.

Machine integers (i64, usize) are embedded as Int/Nat: no arithmetic in the
embedded code comes near overflow, and overflow behaviour is not at issue in
any claim.  Rust functions that can panic (unchecked slice indexing,
`panic!`) are embedded with an `Option` layer where `none` marks the panic.
-/

namespace Genanki

/-! ## Data model

Structures mirror src/core/card.rs, crates/genanki-core/src/model.rs and the
field/template database entries (`Fld`/`Tmpl` of the absent db_entries.rs,
whose shape is fixed by their use in src/src/model.rs and the spec, section 3).
-/

/-- Card (src/core/card.rs): an ordinal plus a suspended flag. -/
structure Card where
  ord : Int
  suspend : Bool
deriving DecidableEq, Repr

/-- Card::new (src/core/card.rs). -/
def Card.new (ord : Int) (suspend : Bool) : Card := ⟨ord, suspend⟩

/-- Card::queue_value (src/core/card.rs): SUSPENDED = -1, NEW = 0
(src/core/config.rs, module db::queue). -/
def Card.queue_value (c : Card) : Int := if c.suspend then -1 else 0

/-- Field of a model.  Modelled from the spec: the `Fld` database entry of
db_entries.rs is not under src/; per section 3 a field carries its name and
display attributes, plus the ordinal set at serialization time.  Only `name`
is consulted by the embedded algorithms. -/
structure Fld where
  name : String
  font : Option String := none
  size : Option Int := none
  rtl : Option Bool := none
  sticky : Option Bool := none
  ord : Int := 0
deriving DecidableEq, Repr

/-- Template of a model.  Modelled from the spec: the `Tmpl` database entry of
db_entries.rs is not under src/; per section 3 a template carries a name, a
question format and an answer format, plus the serialization ordinal. -/
structure Tmpl where
  name : String
  qfmt : String
  afmt : String
  ord : Int := 0
deriving DecidableEq, Repr

/-- ModelType (src/model.rs): FrontBack or Cloze.  The core generation
(src/core/config.rs) names the first constructor Basic; the two enums are
in bijection and are embedded as one type. -/
inductive ModelType where
  | frontBack
  | cloze
deriving DecidableEq, Repr

/-- Model (src/model.rs): id, name, ordered fields, ordered templates, css,
kind, LaTeX wrappers, sort-field index. -/
structure Model where
  id : Int
  name : String
  fields : List Fld
  templates : List Tmpl
  css : String := ""
  model_type : ModelType := ModelType.frontBack
  latex_pre : String := ""
  latex_post : String := ""
  sort_field_index : Int := 0
deriving DecidableEq, Repr

/-- Error (src/error.rs): the constructors exercised by the embedded code.
`templateFormat` carries the offending template, as in src/model.rs line 180
(`Error::TemplateFormat(Box::new(template.clone()))`); the core analyzer
variant carries only the template name and is embedded via `templateFormatName`
(crates/genanki-core/src/model.rs line 264).  `validation` is
`Error::Validation(String)` of src/error.rs. -/
inductive Error where
  | modelFieldCountMismatch (modelFields : Nat) (providedFields : Nat)
  | tagContainsWhitespace
  | templateFormat (t : Tmpl)
  | templateFormatName (name : String)
  | validation (msg : String)
  | noDecks
deriving DecidableEq, Repr

/-! ## Character-level utilities shared by the regex embeddings -/

/-- The regex word character class `\w` over the ASCII content the library
handles: letters, digits and underscore. -/
def isWordChar (c : Char) : Bool := c.isAlphanum || c == '_'

/-- Whether the pattern `pat` occurs in `s` starting exactly at offset `p`. -/
def matchesAt (s : List Char) (p : Nat) (pat : List Char) : Bool :=
  pat.isPrefixOf (s.drop p)

/-- Whether the character at offset `i` exists and is a word character. -/
def wordCharAt (s : List Char) (i : Nat) : Bool :=
  match s.get? i with
  | some c => isWordChar c
  | none => false

/-- The regex word boundary `\b` at offset `p`: exactly one side of the
position holds a word character (positions before the start and past the end
count as non-word). -/
def wordBoundaryAt (s : List Char) (p : Nat) : Bool :=
  (decide (0 < p) && wordCharAt s (p - 1)) != wordCharAt s p

/-- Whether `sub` occurs somewhere in `s` (the `str::contains` test used by
the any-mode fallback of the requirement analyzer). -/
def containsSub (s sub : List Char) : Bool :=
  (List.range (s.length + 1)).any (fun p => matchesAt s p sub)

/-! ## contains_other_fields (src/model.rs lines 234-243)

The source builds the fancy_regex pattern `(?!{field}\b)\b(\w)*{sentinel}+`
(with `{field}` the current field's placeholder `<name>SeNtInEl` and
`{sentinel}` the literal `SeNtInEl`, so the trailing `+` binds to its final
`l`) and asks `is_match`.  The embedding states the existence of a match
position directly: a position `p` that is a word boundary, at which the input
does not continue with the current field's placeholder followed by a word
boundary (the negative lookahead), and from which a run of word characters
reaches an occurrence of the sentinel. -/

/-- A run of word characters starting at `p` followed by the sentinel:
the `(\w)*{sentinel}` part of the pattern (matching one copy of the trailing
`l+` suffices for `is_match`). -/
def wordRunThenSentinel (s : List Char) (p : Nat) (sentinel : List Char) : Bool :=
  (List.range (s.length - p + 1)).any (fun k =>
    (List.range k).all (fun i => wordCharAt s (p + i)) && matchesAt s (p + k) sentinel)

/-- contains_other_fields (src/model.rs lines 234-243): `is_match` of
`(?!{field}\b)\b(\w)*{sentinel}+` on the rendered question format.  Field
names are treated as regex-literal text (the library interpolates them into
the pattern unescaped; all claims use alphanumeric names). -/
def containsOtherFields (rendered currentField sentinel : List Char) : Bool :=
  (List.range (rendered.length + 1)).any (fun p =>
    !(matchesAt rendered p currentField &&
        wordBoundaryAt rendered (p + currentField.length)) &&
    wordBoundaryAt rendered p &&
    wordRunThenSentinel rendered p sentinel)

/-! ## Mustache rendering

Modelled from the spec: template rendering is performed by the external
ramhorns crate, which is not part of this repository.  Section 3 fixes the
micro-template language: plain `{{Field}}` interpolation, sectioned
conditionals `{{#Field}}...{{/Field}}` (render iff the bound value is
non-empty) and inverted `{{^Field}}...{{/Field}}` (render iff empty); unknown
names render as empty.  Tag names are trimmed of surrounding spaces;
`{{!...}}` comments render as nothing.  Template compilation is modelled as
total (no claim exercises a malformed template). -/

/-- Split off the text before the first `\x7b\x7b`, the tag body up to the
following `\x7d\x7d`, and the rest. -/
def splitOpen : List Char → Option (List Char × List Char)
  | [] => none
  | '{' :: '{' :: rest => some ([], rest)
  | c :: rest => (splitOpen rest).map (fun pr => (c :: pr.1, pr.2))

/-- Split off the text before the first `\x7d\x7d` and the rest after it. -/
def splitClose : List Char → Option (List Char × List Char)
  | [] => none
  | '}' :: '}' :: rest => some ([], rest)
  | c :: rest => (splitClose rest).map (fun pr => (c :: pr.1, pr.2))

/-- Locate the first complete `\x7b\x7btag\x7d\x7d`: returns the text before
it, the tag body, and the rest of the input. -/
def splitTag (s : List Char) : Option (List Char × List Char × List Char) :=
  match splitOpen s with
  | none => none
  | some (pre, r) =>
    match splitClose r with
    | none => none
    | some (tag, rest) => some (pre, tag, rest)

/-- Trim spaces from both ends of a tag body. -/
def trimSpaces (l : List Char) : List Char :=
  ((l.dropWhile (· == ' ')).reverse.dropWhile (· == ' ')).reverse

/-- Scan for the section-closing tag `\x7b\x7b/name\x7d\x7d`, tracking
nesting of same-name section openers; returns the section body and the rest
after the closer.  Fueled by the input length (each step consumes input). -/
def sectionSplit (name : List Char) : Nat → Nat → List Char → List Char × List Char
  | _, 0, s => (s, [])
  | depth, fuel + 1, s =>
    match splitTag s with
    | none => (s, [])
    | some (pre, tag, rest) =>
      let t := trimSpaces tag
      if t == '/' :: name then
        if depth == 0 then (pre, rest)
        else
          let (body, after) := sectionSplit name (depth - 1) fuel rest
          (pre ++ '{' :: '{' :: tag ++ '}' :: '}' :: body, after)
      else if t == '#' :: name || t == '^' :: name then
        let (body, after) := sectionSplit name (depth + 1) fuel rest
        (pre ++ '{' :: '{' :: tag ++ '}' :: '}' :: body, after)
      else
        let (body, after) := sectionSplit name depth fuel rest
        (pre ++ '{' :: '{' :: tag ++ '}' :: '}' :: body, after)

/-- The value bound to a name, rendered for interpolation (missing names
render as empty). -/
def lookupVal (env : String → Option String) (name : List Char) : List Char :=
  ((env (String.mk name)).getD "").data

/-- One rendering pass, fueled by the number of tags still possible. -/
def renderAux (env : String → Option String) : Nat → List Char → List Char
  | 0, s => s
  | fuel + 1, s =>
    match splitTag s with
    | none => s
    | some (pre, tag, rest) =>
      match trimSpaces tag with
      | '#' :: nm =>
        let name := trimSpaces nm
        let (body, after) := sectionSplit name 0 rest.length rest
        pre ++ (if (lookupVal env name).isEmpty then []
                else renderAux env fuel body) ++ renderAux env fuel after
      | '^' :: nm =>
        let name := trimSpaces nm
        let (body, after) := sectionSplit name 0 rest.length rest
        pre ++ (if (lookupVal env name).isEmpty then renderAux env fuel body
                else []) ++ renderAux env fuel after
      | '!' :: _ => pre ++ renderAux env fuel rest
      | nm => pre ++ lookupVal env nm ++ renderAux env fuel rest

/-- Render a template string under an environment binding field names to
values. -/
def render (template : String) (env : String → Option String) : List Char :=
  renderAux env template.data.length template.data

/-! ## Model::req (src/model.rs lines 153-185) -/

/-- The sentinel token of the requirement analyzer. -/
def sentinel : String := "SeNtInEl"

/-- The environment binding every field name to its placeholder
`<name><sentinel>`, as built on src/model.rs lines 155-158. -/
def Model.sentinelEnv (m : Model) : String → Option String := fun n =>
  if (m.fields.map Fld.name).contains n then some (n ++ sentinel) else none

/-- The question format of template `t` rendered with every field bound to
its placeholder (src/model.rs lines 161-162). -/
def Model.renderedQfmt (m : Model) (t : Tmpl) : List Char :=
  render t.qfmt m.sentinelEnv

/-- The all-mode field set for template `t`: ordinals of the fields whose
placeholder does not trip contains_other_fields on the rendered output
(src/model.rs lines 163-168). -/
def Model.allSet (m : Model) (t : Tmpl) : List Nat :=
  ((m.fields.map Fld.name).enum.filter (fun p =>
    !containsOtherFields (m.renderedQfmt t) (p.2 ++ sentinel).data sentinel.data)).map
    Prod.fst

/-- The any-mode field set for template `t`: ordinals of the fields whose
placeholder occurs verbatim in the rendered output (src/model.rs
lines 173-178). -/
def Model.anySet (m : Model) (t : Tmpl) : List Nat :=
  ((m.fields.map Fld.name).enum.filter (fun p =>
    containsSub (m.renderedQfmt t) (p.2 ++ sentinel).data)).map Prod.fst

/-- The per-template loop body of Model::req, processing the templates from
absolute ordinal `i` on. -/
def reqAux (m : Model) : Nat → List Tmpl → Except Error (List (Nat × String × List Nat))
  | _, [] => Except.ok []
  | i, t :: ts =>
    if m.allSet t ≠ [] then
      (reqAux m (i + 1) ts).map (fun l => (i, "all", m.allSet t) :: l)
    else if m.anySet t = [] then
      Except.error (Error.templateFormat t)
    else
      (reqAux m (i + 1) ts).map (fun l => (i, "any", m.anySet t) :: l)

/-- Model::req (src/model.rs lines 153-185): per template in ordinal order,
the all-mode set if non-empty, else the any-mode set if non-empty, else a
TemplateFormat error carrying the offending template. -/
def Model.req (m : Model) : Except Error (List (Nat × String × List Nat)) :=
  reqAux m 0 m.templates

/-! ## Cloze marker extraction (src/note.rs lines 197-231)

The source applies three fancy_regex patterns through re_findall
(src/note.rs lines 249-262), which returns the first capture group of every
non-overlapping match from left to right.  Each pattern is embedded as a
scanner implementing the backtracking engine's leftmost-match,
priority-ordered semantics for that pattern. -/

/-- Longest digit run at the head of the input and the rest after it
(the greedy `\d+`; a following `::` cannot force backtracking into it
since `:` is not a digit). -/
def spanDigits (s : List Char) : List Char × List Char :=
  (s.takeWhile Char.isDigit, s.dropWhile Char.isDigit)

/-- Numeric value of a digit run. -/
def digitsToNat (ds : List Char) : Nat :=
  ds.foldl (fun n c => n * 10 + (c.toNat - 48)) 0

/-- The lazy `.+?` before a closing `\x7d\x7d`: after at least one consumed
character, stop at the first `\x7d\x7d`; returns the rest after it. -/
def lazyFindClose : List Char → Option (List Char)
  | '}' :: '}' :: r => some r
  | _ :: r => lazyFindClose r
  | [] => none

/-- Match `\x7b\x7bc(\d+)::.+?\x7d\x7d` at the head of the input: returns the
captured group number and the rest after the match. -/
def clozeMarkerAt (s : List Char) : Option (Nat × List Char) :=
  match s with
  | '{' :: '{' :: 'c' :: r =>
    match spanDigits r with
    | ([], _) => none
    | (ds, r') =>
      match r' with
      | ':' :: ':' :: r'' =>
        match r'' with
        | [] => none
        | _ :: body => (lazyFindClose body).map (fun rest => (digitsToNat ds, rest))
      | _ => none
  | _ => none

/-- All group numbers captured by `(?s)\x7b\x7bc(\d+)::.+?\x7d\x7d` over a
field value, non-overlapping and left to right, fueled by the input length
(every step consumes at least one character). -/
def clozeNumsAux : Nat → List Char → List Nat
  | 0, _ => []
  | _, [] => []
  | fuel + 1, s =>
    match clozeMarkerAt s with
    | some (n, rest) => n :: clozeNumsAux fuel rest
    | none => clozeNumsAux fuel (s.drop 1)

/-- re_findall of `(?s)\x7b\x7bc(\d+)::.+?\x7d\x7d` on a field value
(src/note.rs line 217). -/
def clozeNums (v : String) : List Nat :=
  clozeNumsAux v.data.length v.data

/-- The rests reachable after `[^\x7d]*?` (lazily skipping non-`\x7d`
characters) followed by the literal `cloze:`, in the engine's priority order
(fewest skipped characters first). -/
def clozePrefixRests : List Char → List (List Char)
  | [] => []
  | s@(c :: r) =>
    (if matchesAt s 0 "cloze:".data then [s.drop 6] else []) ++
      (if c == '}' then [] else clozePrefixRests r)

/-- The rests reachable by the greedy `(?:[^\x7d]?:)*`, in priority order:
within one repetition `[^\x7d]?` prefers one character over none, and more
repetitions are tried before fewer.  Fueled by the input length (every
repetition consumes at least the `:`). -/
def clozeGroupRests : Nat → List Char → List (List Char)
  | 0, s => [s]
  | fuel + 1, s =>
    (match s with
     | c :: ':' :: r => if c == '}' then [] else clozeGroupRests fuel r
     | _ => []) ++
    (match s with
     | ':' :: r => clozeGroupRests fuel r
     | _ => []) ++ [s]

/-- The scan for the closing `\x7d\x7d` after at least one captured
character, accumulating the capture in reverse. -/
def lazyCaptureAux (acc : List Char) : List Char → Option (List Char × List Char)
  | '}' :: '}' :: r => some (acc.reverse, r)
  | c :: r => lazyCaptureAux (c :: acc) r
  | [] => none

/-- The lazy capture `(.+?)` before `\x7d\x7d`: the shortest non-empty prefix
followed by the closing braces; returns the capture and the rest after
them. -/
def lazyCapture : List Char → Option (List Char × List Char)
  | [] => none
  | c :: rest => lazyCaptureAux [c] rest

/-- First successful alternative in a priority-ordered list of rests. -/
def firstCapture (f : List Char → Option (List Char × List Char)) :
    List (List Char) → Option (List Char × List Char)
  | [] => none
  | r :: rs =>
    match f r with
    | some x => some x
    | none => firstCapture f rs

/-- Match the tail of `\x7b\x7b[^\x7d]*?cloze:(?:[^\x7d]?:)*(.+?)\x7d\x7d`
immediately after the opening braces: returns the captured field name and
the rest after the match. -/
def clozeNameTagAt (s : List Char) : Option (List Char × List Char) :=
  firstCapture
    (fun afterColon =>
      firstCapture lazyCapture (clozeGroupRests afterColon.length afterColon))
    (clozePrefixRests s)

/-- All field names captured by the curly cloze-directive pattern over a
question format, non-overlapping and left to right. -/
def clozeNamesCurlyAux : Nat → List Char → List String
  | 0, _ => []
  | _, [] => []
  | fuel + 1, s =>
    match s with
    | '{' :: '{' :: r =>
      match clozeNameTagAt r with
      | some (cap, rest) => String.mk cap :: clozeNamesCurlyAux fuel rest
      | none => clozeNamesCurlyAux fuel (s.drop 1)
    | _ => clozeNamesCurlyAux fuel (s.drop 1)

/-- re_findall of `\x7b\x7b[^\x7d]*?cloze:(?:[^\x7d]?:)*(.+?)\x7d\x7d` on the
first template's question format (src/note.rs lines 200-203). -/
def clozeNamesCurly (qfmt : String) : List String :=
  clozeNamesCurlyAux qfmt.data.length qfmt.data

/-- The scan for the closing `%>` after at least one captured character. -/
def lazyCapturePercentAux (acc : List Char) :
    List Char → Option (List Char × List Char)
  | '%' :: '>' :: r => some (acc.reverse, r)
  | c :: r => lazyCapturePercentAux (c :: acc) r
  | [] => none

/-- The lazy capture of `<%cloze:(.+?)%>`: shortest non-empty prefix before
`%>`. -/
def lazyCapturePercent : List Char → Option (List Char × List Char)
  | [] => none
  | c :: rest => lazyCapturePercentAux [c] rest

/-- All field names captured by `<%cloze:(.+?)%>`, non-overlapping and left
to right. -/
def clozeNamesPercentAux : Nat → List Char → List String
  | 0, _ => []
  | _, [] => []
  | fuel + 1, s =>
    if matchesAt s 0 "<%cloze:".data then
      match lazyCapturePercent (s.drop 8) with
      | some (cap, rest) => String.mk cap :: clozeNamesPercentAux fuel rest
      | none => clozeNamesPercentAux fuel (s.drop 1)
    else
      match s with
      | [] => []
      | _ :: r => clozeNamesPercentAux fuel r

/-- re_findall of `<%cloze:(.+?)%>` on the first template's question format
(src/note.rs line 204). -/
def clozeNamesPercent (qfmt : String) : List String :=
  clozeNamesPercentAux qfmt.data.length qfmt.data

/-! ## Card generation -/

/-- Insert preserving first occurrence: the observable content of the Rust
HashSet accumulation (iteration order of a HashSet is arbitrary; every claim
about the generated cards concerns their ordinal set and count). -/
def insertUnique (l : List Int) (x : Int) : List Int :=
  if l.contains x then l else l ++ [x]

/-- Deduplicate keeping first occurrences. -/
def dedupKeepFirst (l : List Int) : List Int :=
  l.foldl insertUnique []

/-- The set of cloze field names referenced by the first template's question
format: both accepted spellings, deduplicated (src/note.rs lines 199-204
accumulate them in a HashSet). -/
def clozeReplacements (qfmt : String) : List String :=
  (clozeNamesCurly qfmt ++ clozeNamesPercent qfmt).foldl
    (fun acc n => if acc.contains n then acc else acc ++ [n]) []

/-- The bound value of the cloze field named `nm`: the note field at the
first model-field index with that name, or empty if no model field matches.
The index into the note's field values is unchecked in the source
(`self_fields[field_index]`, src/note.rs line 213): `none` marks that
panic. -/
def clozeFieldValue (m : Model) (fields : List String) (nm : String) :
    Option String :=
  match (m.fields.enum.find? (fun p => p.2.name == nm)) with
  | some (i, _) =>
    match fields.get? i with
    | some v => some v
    | none => none
  | none => some ""

/-- The cloze group numbers contributed by every referenced field, converted
to zero-based ordinals with negatives discarded (src/note.rs lines 205-223);
`none` marks an out-of-bounds field access. -/
def clozeOrds (m : Model) (fields : List String) :
    List String → Option (List Int)
  | [] => some []
  | nm :: nms =>
    match clozeFieldValue m fields nm with
    | none => none
    | some v =>
      match clozeOrds m fields nms with
      | none => none
      | some rest =>
        some (((clozeNums v).map (fun n => (n : Int) - 1)).filter (0 ≤ ·) ++ rest)

/-- cloze_cards (src/note.rs lines 197-231): ordinals extracted from the
cloze markers of the referenced fields, falling back to the single ordinal 0
when none are found; one unsuspended Card per ordinal.  `none` marks a panic:
the unchecked `model.templates()[0]` access (line 202) or an out-of-bounds
field access. -/
def cloze_cards (m : Model) (fields : List String) : Option (List Card) :=
  match m.templates.get? 0 with
  | none => none
  | some t0 =>
    match clozeOrds m fields (clozeReplacements t0.qfmt) with
    | none => none
    | some ords =>
      let cardOrds := dedupKeepFirst ords
      let cardOrds := if cardOrds = [] then [0] else cardOrds
      some (cardOrds.map (fun o => Card.new o false))

/-- The short-circuiting `iter.any(String::is_empty)` over
`required_field_ords.iter().map(|&ord| &self_fields[ord])` (src/note.rs
lines 236-238): indexing happens lazily, so ordinals after the first empty
value are never dereferenced; `none` marks an out-of-bounds index. -/
def anyEmptyLazy (fields : List String) : List Nat → Option Bool
  | [] => some false
  | o :: os =>
    match fields.get? o with
    | none => none
    | some v => if v.isEmpty then some true else anyEmptyLazy fields os

/-- The short-circuiting `iter.all(String::is_empty)` (src/note.rs
line 239). -/
def allEmptyLazy (fields : List String) : List Nat → Option Bool
  | [] => some true
  | o :: os =>
    match fields.get? o with
    | none => none
    | some v => if v.isEmpty then allEmptyLazy fields os else some false

/-- The requirement-evaluation loop of front_back_cards (src/note.rs
lines 235-245): under "any" a card is pushed when some required field is
empty, under "all" when every required field is empty; any other mode string
is `panic!("only any or all")`, and `none` marks a panic. -/
def frontBackAux (fields : List String) :
    List (Nat × String × List Nat) → Option (List Card)
  | [] => some []
  | (ord, mode, ords) :: rest =>
    let cond :=
      if mode = "any" then anyEmptyLazy fields ords
      else if mode = "all" then allEmptyLazy fields ords
      else none
    match cond with
    | none => none
    | some c =>
      match frontBackAux fields rest with
      | none => none
      | some tail => some (if c then Card.new (ord : Int) false :: tail else tail)

/-- front_back_cards (src/note.rs lines 233-247): evaluates Model::req and
pushes one Card per requirement whose condition holds.  Note the source
tests `String::is_empty` on the required fields, so the emission condition
is that the listed fields are EMPTY (any mode: at least one empty; all mode:
all empty). -/
def front_back_cards (m : Model) (fields : List String) :
    Option (Except Error (List Card)) :=
  match m.req with
  | Except.error e => some (Except.error e)
  | Except.ok reqs => (frontBackAux fields reqs).map Except.ok

/-! ## Core card generation (src/core/note.rs)

The core Note implementation calls `model.req()` on `core::model::Model`,
whose source file is not under src/.  Modelled from the spec: the analyzer
of section 4.1, which coincides with Model::req of src/model.rs (the claims'
authority for requirement analysis); the core variant's TemplateFormat error
carries the template name. -/

/-- The core analyzer.  Modelled from the spec: core::model::Model::req is
absent from src/; section 4.1's algorithm is that of Model::req, with the
error carrying the offending template's name
(Error::TemplateFormat(template.name) in the core error type). -/
def coreReq (m : Model) : Except Error (List (Nat × String × List Nat)) :=
  match m.req with
  | Except.error (Error.templateFormat t) =>
    Except.error (Error.templateFormatName t.name)
  | Except.error e => Except.error e
  | Except.ok l => Except.ok l

/-- The lazy `.any(|&ord| !fields[ord].is_empty())` of src/core/note.rs
lines 205-207; `none` marks an out-of-bounds index. -/
def anyNonEmptyLazy (fields : List String) : List Nat → Option Bool
  | [] => some false
  | o :: os =>
    match fields.get? o with
    | none => none
    | some v => if v.isEmpty then anyNonEmptyLazy fields os else some true

/-- The lazy `.all(|&ord| !fields[ord].is_empty())` of src/core/note.rs
lines 208-210. -/
def allNonEmptyLazy (fields : List String) : List Nat → Option Bool
  | [] => some true
  | o :: os =>
    match fields.get? o with
    | none => none
    | some v => if v.isEmpty then some false else allNonEmptyLazy fields os

/-- The requirement-evaluation loop of generate_basic_cards
(src/core/note.rs lines 203-222): under "any" a card is created when some
required field is non-empty, under "all" when every required field is
non-empty; any other mode string is an Error::Validation. -/
def generateBasicAux (fields : List String) :
    List (Nat × String × List Nat) → Option (Except Error (List Card))
  | [] => some (Except.ok [])
  | (ord, mode, ords) :: rest =>
    let cond :=
      if mode = "any" then (anyNonEmptyLazy fields ords).map Except.ok
      else if mode = "all" then (allNonEmptyLazy fields ords).map Except.ok
      else some (Except.error (Error.validation ("Invalid req type: " ++ mode)))
    match cond with
    | none => none
    | some (Except.error e) => some (Except.error e)
    | some (Except.ok c) =>
      match generateBasicAux fields rest with
      | none => none
      | some (Except.error e) => some (Except.error e)
      | some (Except.ok tail) =>
        some (Except.ok (if c then Card.new (ord : Int) false :: tail else tail))

/-- generate_basic_cards (src/core/note.rs lines 200-225): evaluates the
requirement specs and creates one Card per template whose listed fields are
non-empty as the mode demands. -/
def generate_basic_cards (m : Model) (fields : List String) :
    Option (Except Error (List Card)) :=
  match coreReq m with
  | Except.error e => some (Except.error e)
  | Except.ok reqs => generateBasicAux fields reqs

/-- generate_cloze_cards (src/core/note.rs lines 228-263): identical marker
extraction to cloze_cards (unknown field names fall back to the empty value,
`.position(...).map(|idx| &fields[idx]).unwrap_or(&empty)` with the same
unchecked indexing and the same unchecked `templates[0]` access). -/
def generate_cloze_cards (m : Model) (fields : List String) :
    Option (List Card) :=
  cloze_cards m fields

/-! ## Note identity (src/util.rs) -/

/-- Hexadecimal digits of `n`, padded to 64 characters (the hex encoding of
a 32-byte digest). -/
def padHex64 (n : Nat) : String :=
  let ds := Nat.toDigits 16 n
  String.mk (List.replicate (64 - ds.length) '0' ++ ds)

/-- Modelled from the spec: the BLAKE3 digest comes from the external blake3
crate; section 4.3 requires only a deterministic, collision-resistant hash
whose hex encoding is the identity.  Embedded as a deterministic 256-bit
mixing fold over the input bytes (no claim depends on digest values, only on
determinism and on what is hashed). -/
def blake3Hex (s : String) : String :=
  padHex64 (s.data.foldl
    (fun h c => (h * 1099511628211 + c.toNat + 1) % 2 ^ 256)
    14695981039346656037)

/-- guid_for (src/util.rs lines 14-25): join the field values with the ASCII
unit separator 0x1F and hex-encode the digest of the joined string. -/
def guid_for (fields : List String) : String :=
  blake3Hex (String.intercalate "\x1f" fields)

/-! ## Tag validation (src/note.rs lines 264-270, src/core/note.rs
lines 282-288; the two are textually identical) -/

/-- Rust's `str::contains(char)`: whether the character occurs in the
string. -/
def strContainsChar (s : String) (c : Char) : Bool :=
  s.data.contains c

/-- validate_tags: error iff some tag contains a space character
(`tag.contains(' ')`). -/
def validate_tags (tags : List String) : Except Error Unit :=
  if tags.any (fun tag => strContainsChar tag ' ') then
    Except.error Error.tagContainsWhitespace
  else
    Except.ok ()

/-! ## Notes -/

/-- Note (src/note.rs lines 13-21): model, field values, sort flag, tags,
identity and the frozen generated cards. -/
structure Note where
  model : Model
  fields : List String
  sort_field : Bool
  tags : List String
  guid : String
  cards : List Card
deriving DecidableEq, Repr

/-- Note::new (src/note.rs lines 34-52): generates the cards for the model
kind, derives the default guid, and builds the Note.  No field-count check
happens here (it is performed by write_to_db).  `none` marks a panic inside
card generation. -/
def Note.new (model : Model) (fields : List String) :
    Option (Except Error Note) :=
  match model.model_type with
  | ModelType.frontBack =>
    match front_back_cards model fields with
    | none => none
    | some (Except.error e) => some (Except.error e)
    | some (Except.ok cards) =>
      some (Except.ok
        { model, fields, sort_field := false, tags := [],
          guid := guid_for fields, cards })
  | ModelType.cloze =>
    (cloze_cards model fields).map (fun cards =>
      Except.ok
        { model, fields, sort_field := false, tags := [],
          guid := guid_for fields, cards })

/-- Note::new_with_options (src/note.rs lines 60-90): validates the tags,
generates the cards, and stores the explicit guid verbatim when provided
(`guid.unwrap_or(&guid_for(&fields))`), defaulting sort_field to false. -/
def Note.new_with_options (model : Model) (fields : List String)
    (sortField : Option Bool) (tags : Option (List String))
    (g : Option String) : Option (Except Error Note) :=
  let tags := tags.getD []
  match validate_tags tags with
  | Except.error e => some (Except.error e)
  | Except.ok () =>
    let mkNote (cards : List Card) : Note :=
      { model, fields, sort_field := sortField.getD false, tags,
        guid := g.getD (guid_for fields), cards }
    match model.model_type with
    | ModelType.frontBack =>
      match front_back_cards model fields with
      | none => none
      | some (Except.error e) => some (Except.error e)
      | some (Except.ok cards) => some (Except.ok (mkNote cards))
    | ModelType.cloze =>
      (cloze_cards model fields).map (fun cards => Except.ok (mkNote cards))

/-- The card set chosen per model kind in the core constructors
(src/core/note.rs lines 59-62 and 104-107). -/
def coreCards (model : Model) (fields : List String) :
    Option (Except Error (List Card)) :=
  match model.model_type with
  | ModelType.frontBack => generate_basic_cards model fields
  | ModelType.cloze => (generate_cloze_cards model fields).map Except.ok

/-- core Note::new (src/core/note.rs lines 48-74): validates the field count
against the model before generating cards; violation is
Error::ModelFieldCountMismatch(model.num_fields(), fields.len()). -/
def coreNoteNew (model : Model) (fields : List String) :
    Option (Except Error Note) :=
  if model.fields.length ≠ fields.length then
    some (Except.error
      (Error.modelFieldCountMismatch model.fields.length fields.length))
  else
    match coreCards model fields with
    | none => none
    | some (Except.error e) => some (Except.error e)
    | some (Except.ok cards) =>
      some (Except.ok
        { model, fields, sort_field := false, tags := [],
          guid := guid_for fields, cards })

/-- core Note::with_options (src/core/note.rs lines 78-119): tags are
validated first, then the field count, then cards; the explicit guid is
stored verbatim when provided. -/
def coreNoteWithOptions (model : Model) (fields : List String)
    (sortField : Option Bool) (tags : Option (List String))
    (g : Option String) : Option (Except Error Note) :=
  let tags := tags.getD []
  match validate_tags tags with
  | Except.error e => some (Except.error e)
  | Except.ok () =>
    if model.fields.length ≠ fields.length then
      some (Except.error
        (Error.modelFieldCountMismatch model.fields.length fields.length))
    else
      match coreCards model fields with
      | none => none
      | some (Except.error e) => some (Except.error e)
      | some (Except.ok cards) =>
        some (Except.ok
          { model, fields, sort_field := sortField.getD false, tags,
            guid := g.getD (guid_for fields), cards })

/-- format_fields (src/note.rs lines 157-159): field values joined with the
unit separator 0x1F. -/
def Note.format_fields (n : Note) : String :=
  String.intercalate "\x1f" n.fields

/-- format_tags (src/note.rs lines 161-163): tags joined with single spaces
and padded with a leading and a trailing space. -/
def Note.format_tags (n : Note) : String :=
  " " ++ String.intercalate " " n.tags ++ " "

/-! ## Database rows

The notes and cards INSERT statements of src/note.rs lines 173-188 and
crates/genanki-storage/src/cards.rs lines 17-39, with columns in source
order.  The f64 export timestamp is embedded as a non-negative rational: the
one captured value, from which the rows' `timestamp as i64` truncation and
the generator seed `(timestamp * 1000.0) as usize` are both derived by
floor. -/

/-- One row of the notes table. -/
structure NoteRow where
  id : Int
  guid : String
  mid : Int
  modTs : Int
  usn : Int
  tags : String
  flds : String
  sfld : Bool
  csum : Int
  flags : Int
  data : String
deriving DecidableEq, Repr

/-- One row of the cards table. -/
structure CardRow where
  id : Int
  nid : Int
  did : Int
  ord : Int
  modTs : Int
  usn : Int
  ctype : Int
  queue : Int
  due : Int
  ivl : Int
  factor : Int
  reps : Int
  lapses : Int
  leftCnt : Int
  odue : Int
  odid : Int
  flags : Int
  data : String
deriving DecidableEq, Repr

/-- write_card_to_db (crates/genanki-storage/src/cards.rs lines 8-41; the
legacy card module calls an identical INSERT): allocates the next generator
value as the row id and zeroes every scheduling statistic; the queue encodes
the suspended flag.  Returns the row and the advanced generator. -/
def write_card_to_db (card : Card) (timestamp : Int) (deckId : Int)
    (noteId : Int) (gen : Nat) : CardRow × Nat :=
  ({ id := (gen : Int), nid := noteId, did := deckId, ord := card.ord,
     modTs := timestamp, usn := -1, ctype := 0, queue := card.queue_value,
     due := 0, ivl := 0, factor := 0, reps := 0, lapses := 0, leftCnt := 0,
     odue := 0, odid := 0, flags := 0, data := "" }, gen + 1)

/-- The per-card loop of Note::write_to_db (src/note.rs lines 190-192). -/
def writeCards (cards : List Card) (timestamp : Int) (deckId : Int)
    (noteId : Int) (gen : Nat) : List CardRow × Nat :=
  match cards with
  | [] => ([], gen)
  | c :: cs =>
    let (row, gen') := write_card_to_db c timestamp deckId noteId gen
    let (rows, gen'') := writeCards cs timestamp deckId noteId gen'
    (row :: rows, gen'')

/-- Note::write_to_db (src/note.rs lines 164-194): checks the field count
against the model (the check deferred from Note::new), inserts the note row
with a freshly allocated id and the shared timestamp, then writes every card
row using the note row's id (`last_insert_rowid`) and the same generator.
The invalid-HTML check only prints warnings and never fails. -/
def Note.write_to_db (n : Note) (timestamp : Int) (deckId : Int) (gen : Nat) :
    Except Error (NoteRow × List CardRow × Nat) :=
  if n.model.fields.length ≠ n.fields.length then
    Except.error
      (Error.modelFieldCountMismatch n.model.fields.length n.fields.length)
  else
    let noteId := gen
    let row : NoteRow :=
      { id := (noteId : Int), guid := n.guid, mid := n.model.id,
        modTs := timestamp, usn := -1, tags := n.format_tags,
        flds := n.format_fields, sfld := n.sort_field, csum := 0, flags := 0,
        data := "" }
    let wc := writeCards n.cards timestamp deckId (noteId : Int) (gen + 1)
    Except.ok (row, wc.1, wc.2)

/-! ## Decks and packages -/

/-- Deck.  Modelled from the spec: the legacy deck module is not under src/;
per section 3 a deck carries a numeric identifier, name, description and its
ordered notes (the derived model registry is keyed by model id and plays no
part in row allocation). -/
structure Deck where
  id : Int
  name : String
  description : String
  notes : List Note
deriving DecidableEq, Repr

/-- The per-note loop of Deck::write_to_db.  Modelled from the spec
(section 4.4, steps 2c-2d): every note of the deck is written through
Note::write_to_db with the deck's id, threading the shared generator; the
deck- and model-registry JSON merges allocate no row identifiers and are
omitted. -/
def deckNotesWrite (timestamp : Int) (deckId : Int) :
    List Note → Nat → Except Error (List (NoteRow × List CardRow) × Nat)
  | [], gen => Except.ok ([], gen)
  | n :: ns, gen =>
    match n.write_to_db timestamp deckId gen with
    | Except.error e => Except.error e
    | Except.ok (row, cardRows, gen') =>
      match deckNotesWrite timestamp deckId ns gen' with
      | Except.error e => Except.error e
      | Except.ok (rest, gen'') => Except.ok ((row, cardRows) :: rest, gen'')

/-- Deck::write_to_db (see deckNotesWrite). -/
def Deck.write_to_db (d : Deck) (timestamp : Int) (gen : Nat) :
    Except Error (List (NoteRow × List CardRow) × Nat) :=
  deckNotesWrite timestamp d.id d.notes gen

/-- Package (src/package.rs lines 42-45): decks plus media file paths. -/
structure Package where
  decks : List Deck
  media_files : List String
deriving DecidableEq, Repr

/-- Package::new (src/package.rs lines 51-57): converts the media paths and
builds the value.  It is infallible — no deck or media validation happens
here. -/
def Package.new (decks : List Deck) (mediaFiles : List String) : Package :=
  { decks, media_files := mediaFiles }

/-- The per-deck loop of Package::write_to_db (src/package.rs
lines 139-147): one generator seeded from the shared timestamp
(`(timestamp * 1000.0) as usize`) is threaded through every deck. -/
def packageWriteDecks (decks : List Deck) (timestamp : Int) (gen : Nat) :
    Except Error (List (NoteRow × List CardRow) × Nat) :=
  match decks with
  | [] => Except.ok ([], gen)
  | d :: ds =>
    match d.write_to_db timestamp gen with
    | Except.error e => Except.error e
    | Except.ok (rows, gen') =>
      match packageWriteDecks ds timestamp gen' with
      | Except.error e => Except.error e
      | Except.ok (rest, gen'') => Except.ok (rows ++ rest, gen'')

/-- Package::write_to_db (src/package.rs lines 139-147) under the single
timestamp captured by write_maybe_timestamp (lines 95-99): the generator
starts at `(timestamp * 1000.0) as usize` and every row's modification
column is `timestamp as i64`. -/
def Package.write_to_db (p : Package) (timestamp : ℚ) :
    Except Error (List (NoteRow × List CardRow)) :=
  match packageWriteDecks p.decks ⌊timestamp⌋ (⌊timestamp * 1000⌋.toNat) with
  | Except.error e => Except.error e
  | Except.ok (rows, _) => Except.ok rows

/-- The archive entry names produced by Package::write_maybe_timestamp
(src/package.rs lines 105-135): the database under `collection.anki2`, the
media index under `media`, and one entry per media file named by its decimal
index.  (The source iterates a HashMap for the media entries; the embedding
fixes enumeration order, which no claim about the entry-name set depends
on.) -/
def Package.entryNames (p : Package) : List String :=
  "collection.anki2" :: "media" ::
    p.media_files.enum.map (fun pr => toString pr.1)

/-- Export package (src/export/package.rs lines 20-23): decks plus a map
from media file name to bytes (the HashMap embedded as an association
list). -/
structure ExportPackage where
  decks : List Deck
  media_files : List (String × List Nat)
deriving DecidableEq, Repr

/-- Export Package::new (src/export/package.rs lines 27-32): fails with
Error::NoDecks iff the deck list is empty. -/
def ExportPackage.new (decks : List Deck) (media : List (String × List Nat)) :
    Except Error ExportPackage :=
  if decks.isEmpty then Except.error Error.noDecks
  else Except.ok { decks, media_files := media }

/-- The archive entry-name constants referenced by
src/export/package.rs.  Modelled from the spec: the constants module is not
under src/; section 6 fixes `collection.anki2`, `collection.media` and the
`media` directory (the repository's integration tests read the produced
archives by exactly these names). -/
def DATABASE_FILENAME : String := "collection.anki2"

/-- The media-index entry name (see DATABASE_FILENAME). -/
def MEDIA_MAPPING_FILENAME : String := "collection.media"

/-- The media directory prefix (see DATABASE_FILENAME). -/
def MEDIA_DIRNAME : String := "media"

/-- The archive entry names produced by the export Package::write_to_file
(src/export/package.rs lines 52-75): the database, the media index, and one
`media/<name>` entry per media file. -/
def ExportPackage.entryNames (p : ExportPackage) : List String :=
  DATABASE_FILENAME :: MEDIA_MAPPING_FILENAME ::
    p.media_files.map (fun pr => MEDIA_DIRNAME ++ "/" ++ pr.1)

/-! ## Row observers and concrete fixtures -/

/-- All row identifiers of an export in allocation order: each note row's id
followed by its card rows' ids. -/
def rowIds (rows : List (NoteRow × List CardRow)) : List Int :=
  rows.flatMap (fun pr => pr.1.id :: pr.2.map CardRow.id)

/-- All modification values of an export's rows, in the same order. -/
def rowMods (rows : List (NoteRow × List CardRow)) : List Int :=
  rows.flatMap (fun pr => pr.1.modTs :: pr.2.map CardRow.modTs)

/-- The consecutive identifiers `a, a+1, ..., a+n-1` as Ints. -/
def consecInts (a n : Nat) : List Int :=
  (List.range n).map (fun k => ((a + k : Nat) : Int))

/-- The spec's two-field, one-template Basic model: the template references
only Front, unconditionally. -/
def basicFB : Model :=
  { id := 1607392319, name := "Simple Model",
    fields := [{ name := "Front" }, { name := "Back" }],
    templates := [{ name := "Card 1", qfmt := "{{Front}}", afmt := "" }] }

/-- The three-field model of the repository's own field-count tests
(src/tests/note_tests.rs lines 102-115). -/
def mQAE : Model :=
  { id := 1894808898, name := "Test Model",
    fields := [{ name := "Question" }, { name := "Answer" }, { name := "Extra" }],
    templates := [{ name := "Card 1", qfmt := "{{Question}}", afmt := "" }] }

/-- The built-in Cloze model (src/builtin_models.rs lines 263-278, CSS
omitted). -/
def clozeM : Model :=
  { id := 1122529321, name := "Cloze (genanki)",
    fields := [{ name := "Text" }],
    templates := [{ name := "Cloze", qfmt := "{{cloze:Text}}",
                    afmt := "{{cloze:Text}}" }],
    model_type := ModelType.cloze }

/-- A model whose single template's question format contains a
sentinel-lookalike token and no field reference: both requirement sets come
out empty, so analysis must fail. -/
def badModel : Model :=
  { id := 9, name := "Bad",
    fields := [{ name := "F1" }, { name := "F2" }],
    templates := [{ name := "C", qfmt := "xSeNtInEl", afmt := "" }] }

/-- A Cloze model with no templates (claim C10's subject). -/
def clozeNoTmpl : Model :=
  { id := 7, name := "EmptyCloze",
    fields := [{ name := "Text" }],
    templates := [],
    model_type := ModelType.cloze }

/-- A self-contained note over basicFB with both fields empty (under the
legacy generation this is the configuration that yields a card). -/
def demoNote : Note :=
  { model := basicFB, fields := ["", ""], sort_field := false, tags := [],
    guid := guid_for ["", ""], cards := [Card.new 0 false] }

/-- A one-deck, one-note package for concrete serialization runs. -/
def demoPackage : Package :=
  Package.new [{ id := 42, name := "Demo", description := "", notes := [demoNote] }] []

/-- The rows produced by exporting demoPackage at timestamp 17: the
generator seeds at 17 * 1000, the note row takes id 17000, its card row id
17001, and both rows carry modification value 17. -/
def demoRows : List (NoteRow × List CardRow) :=
  [({ id := 17000, guid := guid_for ["", ""], mid := 1607392319, modTs := 17,
      usn := -1, tags := "  ", flds := "\x1f", sfld := false, csum := 0,
      flags := 0, data := "" },
    [{ id := 17001, nid := 17000, did := 42, ord := 0, modTs := 17, usn := -1,
       ctype := 0, queue := 0, due := 0, ivl := 0, factor := 0, reps := 0,
       lapses := 0, leftCnt := 0, odue := 0, odid := 0, flags := 0,
       data := "" }])]

deriving instance DecidableEq for Except

/-! ## Helper lemmas -/

/-- Every error of the requirement analyzer loop is a TemplateFormat error
carrying a template. -/
theorem reqAux_error_shape (m : Model) :
    ∀ (ts : List Tmpl) (i : Nat) (e : Error),
      reqAux m i ts = Except.error e → ∃ t, e = Error.templateFormat t := by
  intro ts
  induction ts with
  | nil => intro i e h; simp [reqAux] at h
  | cons t ts ih =>
    intro i e h
    simp only [reqAux] at h
    split at h
    · cases hr : reqAux m (i + 1) ts with
      | error e' =>
        rw [hr] at h
        simp only [Except.map] at h
        cases h
        exact ih (i + 1) _ hr
      | ok l => rw [hr] at h; simp [Except.map] at h
    · split at h
      · cases h; exact ⟨t, rfl⟩
      · cases hr : reqAux m (i + 1) ts with
        | error e' =>
          rw [hr] at h
          simp only [Except.map] at h
          cases h
          exact ih (i + 1) _ hr
        | ok l => rw [hr] at h; simp [Except.map] at h

/-- Every generated cloze card set is non-empty and entirely unsuspended. -/
theorem cloze_cards_shape (m : Model) (fields : List String) (l : List Card)
    (h : cloze_cards m fields = some l) :
    l ≠ [] ∧ ∀ c ∈ l, c.suspend = false := by
  unfold cloze_cards at h
  split at h
  · cases h
  · split at h
    · cases h
    · simp only [Option.some.injEq] at h
      subst h
      constructor
      · split
        · simp
        · rename_i hne
          simpa using hne
      · intro c hc
        rcases List.mem_map.mp hc with ⟨o, _, rfl⟩
        rfl

/-! ## Claim theorems -/

/-- C1: for the two-field, one-template Basic model whose template
references only Front, the requirement analysis yields (0, all, \x7b0\x7d), but
the legacy front_back_cards emits the card exactly when the required field
is EMPTY: zero cards for a non-empty Front (["A", ""], ["A", "B"]) and one
card for an empty Front (["", ""], ["", "B"]), the opposite of the claimed
condition, which the core generate_basic_cards implements. -/
theorem C1_front_back_inversion :
    Model.req basicFB = Except.ok [(0, "all", [0])] ∧
    front_back_cards basicFB ["A", ""] = some (Except.ok []) ∧
    front_back_cards basicFB ["A", "B"] = some (Except.ok []) ∧
    front_back_cards basicFB ["", ""] = some (Except.ok [Card.new 0 false]) ∧
    front_back_cards basicFB ["", "B"] = some (Except.ok [Card.new 0 false]) ∧
    (Note.new basicFB ["A", ""]).map (fun r => r.map Note.cards) =
      some (Except.ok []) ∧
    generate_basic_cards basicFB ["A", ""] =
      some (Except.ok [Card.new 0 false]) ∧
    generate_basic_cards basicFB ["", "B"] = some (Except.ok []) := by
  decide

/-- C3 counterexample: the legacy Package::new is infallible — handed an
empty deck list it simply produces a Package value with zero decks, for any
media argument, instead of failing with NoDecks. -/
theorem C3_legacy_package_counterexample :
    Package.new [] ["sound.mp3"] =
      { decks := [], media_files := ["sound.mp3"] } := by
  decide

/-- C3 amended: the export Package::new fails with NoDecks exactly when the
deck list is empty, and otherwise succeeds with the given decks and media
(even empty media). -/
theorem C3_export_no_decks (decks : List Deck)
    (media : List (String × List Nat)) :
    (ExportPackage.new decks media = Except.error Error.noDecks ↔
      decks = []) ∧
    (decks ≠ [] → ExportPackage.new decks media =
      Except.ok { decks, media_files := media }) := by
  cases decks with
  | nil => simp [ExportPackage.new]
  | cons d ds => simp [ExportPackage.new]

/-- C3 witness: a one-deck package with empty media is accepted. -/
theorem C3_witness :
    ExportPackage.new [{ id := 1, name := "D", description := "", notes := [] }] [] =
      Except.ok { decks := [{ id := 1, name := "D", description := "", notes := [] }],
                  media_files := [] } :=
  (C3_export_no_decks _ _).2 (by decide)

/-- C4: over the built-in Cloze model, the field value with markers c1, c2,
c3 yields exactly three cards with ordinal set \x7b0,1,2\x7d; a value without
markers yields exactly the single card at ordinal 0; a repeated cloze number
yields one card, not two; and in general every generated cloze card set is
non-empty with every card unsuspended. -/
theorem C4_cloze_generation :
    ((cloze_cards clozeM ["{{c1::A}} {{c2::B}} {{c3::C}}"]).map
      (fun l => ((l.map Card.ord).toFinset, l.length))) =
        some ({0, 1, 2}, 3) ∧
    cloze_cards clozeM ["no cloze markers"] = some [Card.new 0 false] ∧
    cloze_cards clozeM ["{{c1::A}} {{c1::B}}"] = some [Card.new 0 false] ∧
    ∀ (m : Model) (fields : List String) (l : List Card),
      cloze_cards m fields = some l → l ≠ [] ∧ ∀ c ∈ l, c.suspend = false :=
  ⟨by decide, by decide, by decide, cloze_cards_shape⟩

/-- C4 witness: the general clause applied to the built-in Cloze model on a
marker-free value. -/
theorem C4_witness :
    [Card.new 0 false] ≠ [] ∧ ∀ c ∈ [Card.new 0 false], c.suspend = false :=
  C4_cloze_generation.2.2.2 clozeM ["no cloze markers"] [Card.new 0 false]
    (by decide)

/-- C6 counterexample: the legacy writer names the media index `media`, not
`collection.media`, and stores each media file under its decimal index, not
under `media/<name>`. -/
theorem C6_legacy_layout_counterexample :
    Package.entryNames { decks := [], media_files := ["sound.mp3"] } =
      ["collection.anki2", "media", "0"] ∧
    "collection.media" ∉
      Package.entryNames { decks := [], media_files := ["sound.mp3"] } ∧
    "media/sound.mp3" ∉
      Package.entryNames { decks := [], media_files := ["sound.mp3"] } := by
  decide

/-- C6 amended: the export writer's archive holds exactly the three claimed
kinds of entries — the database under collection.anki2, the media index
under collection.media, and one media/<name> entry per media file. -/
theorem C6_export_layout (p : ExportPackage) :
    DATABASE_FILENAME ∈ p.entryNames ∧
    MEDIA_MAPPING_FILENAME ∈ p.entryNames ∧
    (∀ pr ∈ p.media_files, MEDIA_DIRNAME ++ "/" ++ pr.1 ∈ p.entryNames) ∧
    (∀ e ∈ p.entryNames,
      e = DATABASE_FILENAME ∨ e = MEDIA_MAPPING_FILENAME ∨
        ∃ pr ∈ p.media_files, e = MEDIA_DIRNAME ++ "/" ++ pr.1) := by
  unfold ExportPackage.entryNames
  refine ⟨by simp, by simp, ?_, ?_⟩
  · intro pr hpr
    simp only [List.mem_cons, List.mem_map]
    exact Or.inr (Or.inr ⟨pr, hpr, rfl⟩)
  · intro e he
    simp only [List.mem_cons, List.mem_map] at he
    rcases he with h | h | ⟨pr, hpr, h⟩
    · exact Or.inl h
    · exact Or.inr (Or.inl h)
    · exact Or.inr (Or.inr ⟨pr, hpr, h.symm⟩)

/-- C6 witness: the media entry of a concrete export package. -/
theorem C6_witness :
    ("media/snd.mp3" : String) ∈
      ExportPackage.entryNames { decks := [], media_files := [("snd.mp3", [1])] } :=
  (C6_export_layout _).2.2.1 ("snd.mp3", [1]) (by decide)

/-- C10 counterexample: a core Note construction over a Cloze model with an
empty template list CAN return an error value — a field-count mismatch is
reported before the cloze path's unchecked template access is reached. -/
theorem C10_core_counterexample :
    coreNoteNew clozeNoTmpl [] =
      some (Except.error (Error.modelFieldCountMismatch 1 0)) := by
  decide

/-- C10 amended: over a Cloze model with no templates the cloze generation
panics on the unchecked first-template access (no value, no error), so the
legacy Note::new panics unconditionally and the core Note::new panics
whenever its field-count check passes. -/
theorem C10_cloze_empty_templates_panic (m : Model) (fields : List String)
    (hk : m.model_type = ModelType.cloze) (ht : m.templates = []) :
    cloze_cards m fields = none ∧
    generate_cloze_cards m fields = none ∧
    Note.new m fields = none ∧
    (m.fields.length = fields.length → coreNoteNew m fields = none) := by
  have h1 : cloze_cards m fields = none := by
    unfold cloze_cards
    rw [ht]
    rfl
  refine ⟨h1, h1, ?_, ?_⟩
  · unfold Note.new
    rw [hk, h1]
    rfl
  · intro hlen
    unfold coreNoteNew
    rw [if_neg (not_not_intro hlen)]
    unfold coreCards
    rw [hk]
    unfold generate_cloze_cards
    rw [h1]
    rfl

/-- C10 witness: the panic at a concrete Cloze model with no templates and a
matching field count. -/
theorem C10_witness : coreNoteNew clozeNoTmpl ["x"] = none :=
  (C10_cloze_empty_templates_panic clozeNoTmpl ["x"] (by decide)
    (by decide)).2.2.2 (by decide)

/-- C7: the default note identity is deterministic, is the digest of the
field values joined with the 0x1F unit separator, and an explicit GUID
passed to Note::new_with_options is stored verbatim while an omitted one
defaults to guid_for of the fields. -/
theorem C7_guid_identity :
    (∀ f : List String, guid_for f = guid_for f) ∧
    (∀ f : List String, guid_for f = blake3Hex (String.intercalate "\x1f" f)) ∧
    (∀ (m : Model) (fields : List String) (sf : Option Bool)
        (tags : Option (List String)) (g : String) (n : Note),
      Note.new_with_options m fields sf tags (some g) = some (Except.ok n) →
        n.guid = g) ∧
    (∀ (m : Model) (fields : List String) (sf : Option Bool)
        (tags : Option (List String)) (n : Note),
      Note.new_with_options m fields sf tags none = some (Except.ok n) →
        n.guid = guid_for fields) := by
  refine ⟨fun f => rfl, fun f => rfl, ?_, ?_⟩
  · intro m fields sf tags g n h
    simp only [Note.new_with_options] at h
    split at h
    · cases h
    · split at h
      · split at h
        · cases h
        · cases h
        · simp only [Option.some.injEq, Except.ok.injEq] at h
          subst h
          rfl
      · rw [Option.map_eq_some'] at h
        rcases h with ⟨cards, _, h⟩
        simp only [Except.ok.injEq] at h
        subst h
        rfl
  · intro m fields sf tags n h
    simp only [Note.new_with_options] at h
    split at h
    · cases h
    · split at h
      · split at h
        · cases h
        · cases h
        · simp only [Option.some.injEq, Except.ok.injEq] at h
          subst h
          rfl
      · rw [Option.map_eq_some'] at h
        rcases h with ⟨cards, _, h⟩
        simp only [Except.ok.injEq] at h
        subst h
        rfl

/-- C7 witness: an explicit GUID survives construction verbatim on a
concrete note. -/
theorem C7_witness :
    ({ model := basicFB, fields := ["", ""], sort_field := false, tags := [],
       guid := "g", cards := [Card.new 0 false] } : Note).guid = "g" :=
  C7_guid_identity.2.2.1 basicFB ["", ""] none none "g" _ (by decide)

/-- C8 counterexample: a tag containing a TAB — whitespace — passes
validation and Note construction succeeds, because the check only rejects
the space character. -/
theorem C8_tab_accepted_counterexample :
    validate_tags ["a\tb"] = Except.ok () ∧
    (Note.new_with_options basicFB ["", ""] none (some ["a\tb"]) none).map
      (fun r => r.map Note.tags) = some (Except.ok ["a\tb"]) := by
  decide

/-- C8 amended: tag validation fails with TagContainsWhitespace exactly when
some tag contains the space character; in particular "a b" is rejected, and
the failure propagates out of Note::new_with_options with no Note
produced. -/
theorem C8_tag_space_validation :
    (∀ tags : List String,
      validate_tags tags = Except.error Error.tagContainsWhitespace ↔
        ∃ t ∈ tags, strContainsChar t ' ' = true) ∧
    validate_tags ["a b"] = Except.error Error.tagContainsWhitespace ∧
    (∀ (m : Model) (fields : List String) (sf : Option Bool)
        (tags : List String) (g : Option String),
      (∃ t ∈ tags, strContainsChar t ' ' = true) →
        Note.new_with_options m fields sf (some tags) g =
          some (Except.error Error.tagContainsWhitespace)) := by
  have hval : ∀ tags : List String,
      validate_tags tags = Except.error Error.tagContainsWhitespace ↔
        ∃ t ∈ tags, strContainsChar t ' ' = true := by
    intro tags
    unfold validate_tags
    split
    · rename_i hany
      rw [List.any_eq_true] at hany
      exact iff_of_true rfl hany
    · rename_i hany
      rw [List.any_eq_true] at hany
      exact iff_of_false (by simp) hany
  refine ⟨hval, (hval _).mpr ⟨"a b", by simp, by decide⟩, ?_⟩
  intro m fields sf tags g hex
  have hv := (hval tags).mpr hex
  simp only [Note.new_with_options, Option.getD_some] at hv ⊢
  rw [hv]

/-- C8 witness: construction with the claim's tag "a b" fails with the
whitespace error. -/
theorem C8_witness :
    Note.new_with_options basicFB ["", ""] none (some ["a b"]) none =
      some (Except.error Error.tagContainsWhitespace) :=
  C8_tag_space_validation.2.2 basicFB ["", ""] none ["a b"] none
    ⟨"a b", by simp, by decide⟩

/-- Every error of the core requirement analyzer carries a template name. -/
theorem coreReq_error_shape (m : Model) (e : Error)
    (h : coreReq m = Except.error e) :
    ∃ nm, e = Error.templateFormatName nm := by
  unfold coreReq at h
  split at h
  · cases h
    exact ⟨_, rfl⟩
  · rename_i e1 hno hreq
    injection h with h2
    subst h2
    rcases reqAux_error_shape m m.templates 0 e1 hreq with ⟨t, ht⟩
    exact absurd ht (hno t)
  · cases h

/-- Every error of the core requirement-evaluation loop is a Validation
error. -/
theorem generateBasicAux_error_shape (fields : List String) :
    ∀ (reqs : List (Nat × String × List Nat)) (e : Error),
      generateBasicAux fields reqs = some (Except.error e) →
      ∃ s, e = Error.validation s := by
  intro reqs
  induction reqs with
  | nil => intro e h; simp [generateBasicAux] at h
  | cons r rest ih =>
    intro e h
    obtain ⟨ord, mode, ords⟩ := r
    simp only [generateBasicAux] at h
    split at h
    · cases h
    · rename_i e1 hcond
      cases h
      split at hcond
      · rcases Option.map_eq_some'.mp hcond with ⟨b, _, hb⟩
        cases hb
      · split at hcond
        · rcases Option.map_eq_some'.mp hcond with ⟨b, _, hb⟩
          cases hb
        · simp only [Option.some.injEq, Except.error.injEq] at hcond
          exact ⟨_, hcond.symm⟩
    · split at h
      · cases h
      · cases h
        exact ih _ (by assumption)
      · simp at h

/-- No error produced by core card generation is a field-count mismatch. -/
theorem coreCards_error_shape (m : Model) (fields : List String) (e : Error)
    (h : coreCards m fields = some (Except.error e)) :
    (∃ nm, e = Error.templateFormatName nm) ∨ ∃ s, e = Error.validation s := by
  unfold coreCards at h
  split at h
  · unfold generate_basic_cards at h
    split at h
    · cases h
      exact Or.inl (coreReq_error_shape m _ (by assumption))
    · exact Or.inr (generateBasicAux_error_shape fields _ e h)
  · rcases Option.map_eq_some'.mp h with ⟨cards, _, hc⟩
    cases hc

/-- C2 counterexample: the legacy Note::new performs no field-count check —
against the repository's own three-field test model, two supplied values
construct a Note successfully (its own tests expect the failure only later,
at write_to_db). -/
theorem C2_legacy_counterexample :
    Note.new mQAE ["a", "b"] = some (Except.ok
      { model := mQAE, fields := ["a", "b"], sort_field := false, tags := [],
        guid := guid_for ["a", "b"], cards := [] }) := by
  decide

/-- C2 amended: the core Note::new and Note::with_options fail at
construction with ModelFieldCountMismatch carrying the two lengths whenever
they differ, and never produce that error when the lengths are equal; the
legacy constructors defer the check to write_to_db. -/
theorem C2_core_field_count (m : Model) (fields : List String) :
    (m.fields.length ≠ fields.length →
      coreNoteNew m fields = some (Except.error
        (Error.modelFieldCountMismatch m.fields.length fields.length)) ∧
      ∀ (sf : Option Bool) (g : Option String),
        coreNoteWithOptions m fields sf none g = some (Except.error
          (Error.modelFieldCountMismatch m.fields.length fields.length))) ∧
    (m.fields.length = fields.length →
      ∀ (a b : Nat), coreNoteNew m fields ≠
        some (Except.error (Error.modelFieldCountMismatch a b))) := by
  constructor
  · intro hne
    constructor
    · unfold coreNoteNew
      rw [if_pos hne]
    · intro sf g
      unfold coreNoteWithOptions
      simp only [Option.getD_none]
      rw [show validate_tags [] = Except.ok () from rfl]
      rw [if_pos hne]
  · intro heq a b hcontra
    unfold coreNoteNew at hcontra
    rw [if_neg (not_not_intro heq)] at hcontra
    split at hcontra
    · cases hcontra
    · rename_i e' hcc
      cases hcontra
      rcases coreCards_error_shape m fields _ hcc with ⟨nm, h⟩ | ⟨s, h⟩ <;>
        cases h
    · cases hcontra

/-- C2 witness: the three-field model with two values fails core
construction with the two lengths. -/
theorem C2_witness :
    coreNoteNew mQAE ["a", "b"] =
      some (Except.error (Error.modelFieldCountMismatch 3 2)) :=
  ((C2_core_field_count mQAE ["a", "b"]).1 (by decide)).1

/-- On success, the analyzer loop yields one entry per template, in order:
all-mode with the all-set when that set is non-empty, any-mode with the
any-set otherwise. -/
theorem reqAux_ok_spec (m : Model) :
    ∀ (ts : List Tmpl) (i : Nat) (l : List (Nat × String × List Nat)),
      reqAux m i ts = Except.ok l →
      l.length = ts.length ∧
      ∀ k t, ts.get? k = some t →
        (m.allSet t ≠ [] → l.get? k = some (i + k, "all", m.allSet t)) ∧
        (m.allSet t = [] → l.get? k = some (i + k, "any", m.anySet t)) := by
  intro ts
  induction ts with
  | nil =>
    intro i l h
    simp only [reqAux] at h
    cases h
    simp
  | cons t ts ih =>
    intro i l h
    simp only [reqAux] at h
    split at h
    · rename_i hall
      cases hr : reqAux m (i + 1) ts with
      | error e => rw [hr] at h; simp [Except.map] at h
      | ok l' =>
        rw [hr] at h
        simp only [Except.map, Except.ok.injEq] at h
        subst h
        obtain ⟨hlen, hspec⟩ := ih (i + 1) l' hr
        refine ⟨by simp [hlen], ?_⟩
        intro k tk hk
        cases k with
        | zero =>
          simp only [List.get?_cons_zero, Option.some.injEq] at hk
          subst hk
          exact ⟨fun _ => by simp, fun hemp => absurd hemp hall⟩
        | succ k =>
          simp only [List.get?_cons_succ] at hk ⊢
          have hsp := hspec k tk hk
          have harith : i + 1 + k = i + (k + 1) := by omega
          exact ⟨fun hne => by rw [hsp.1 hne, harith],
                 fun hemp => by rw [hsp.2 hemp, harith]⟩
    · split at h
      · cases h
      · rename_i hall hany
        cases hr : reqAux m (i + 1) ts with
        | error e => rw [hr] at h; simp [Except.map] at h
        | ok l' =>
          rw [hr] at h
          simp only [Except.map, Except.ok.injEq] at h
          subst h
          obtain ⟨hlen, hspec⟩ := ih (i + 1) l' hr
          refine ⟨by simp [hlen], ?_⟩
          intro k tk hk
          cases k with
          | zero =>
            simp only [List.get?_cons_zero, Option.some.injEq] at hk
            subst hk
            refine ⟨fun hne => absurd hne hall, fun _ => by simp⟩
          | succ k =>
            simp only [List.get?_cons_succ] at hk ⊢
            have hsp := hspec k tk hk
            have harith : i + 1 + k = i + (k + 1) := by omega
            exact ⟨fun hne => by rw [hsp.1 hne, harith],
                   fun hemp => by rw [hsp.2 hemp, harith]⟩

/-- When a template's two requirement sets are both empty and every earlier
template has a non-empty set, the analyzer loop fails with TemplateFormat on
exactly that template. -/
theorem reqAux_error_at (m : Model) :
    ∀ (ts : List Tmpl) (i k : Nat) (t : Tmpl),
      ts.get? k = some t → m.allSet t = [] → m.anySet t = [] →
      (∀ j t', j < k → ts.get? j = some t' →
        m.allSet t' ≠ [] ∨ m.anySet t' ≠ []) →
      reqAux m i ts = Except.error (Error.templateFormat t) := by
  intro ts
  induction ts with
  | nil => intro i k t hk; simp at hk
  | cons t0 ts ih =>
    intro i k t hk hall hany hprev
    cases k with
    | zero =>
      simp only [List.get?_cons_zero, Option.some.injEq] at hk
      subst hk
      simp only [reqAux]
      rw [if_neg (not_not_intro hall), if_pos hany]
    | succ k =>
      have h0 := hprev 0 t0 (by omega) (by simp)
      simp only [List.get?_cons_succ] at hk
      have hrec : reqAux m (i + 1) ts = Except.error (Error.templateFormat t) :=
        ih (i + 1) k t hk hall hany
          (fun j t' hj hget => hprev (j + 1) t' (by omega) (by simpa using hget))
      simp only [reqAux]
      by_cases hall0 : m.allSet t0 ≠ []
      · rw [if_pos hall0, hrec]
        rfl
      · have hany0 : m.anySet t0 ≠ [] := by
          rcases h0 with h | h
          · exact absurd h hall0
          · exact h
        rw [if_neg hall0, if_neg hany0, hrec]
        rfl

/-- C5: the requirement analyzer processes templates in ordinal order; per
template it returns (ordinal, all, all-set) when the set of fields whose
rendered placeholder trips no other-field match is non-empty, otherwise
(ordinal, any, any-set) when the verbatim-placeholder set is non-empty, and
otherwise analysis fails with a TemplateFormat error carrying the offending
template and returns no requirement list. -/
theorem C5_req_characterization (m : Model) :
    (∀ l, m.req = Except.ok l →
      l.length = m.templates.length ∧
      ∀ i t, m.templates.get? i = some t →
        (m.allSet t ≠ [] → l.get? i = some (i, "all", m.allSet t)) ∧
        (m.allSet t = [] → l.get? i = some (i, "any", m.anySet t))) ∧
    (∀ i t, m.templates.get? i = some t →
      m.allSet t = [] → m.anySet t = [] →
      (∀ j t', j < i → m.templates.get? j = some t' →
        m.allSet t' ≠ [] ∨ m.anySet t' ≠ []) →
      m.req = Except.error (Error.templateFormat t)) := by
  constructor
  · intro l h
    have hs := reqAux_ok_spec m m.templates 0 l h
    simpa using hs
  · intro i t h1 h2 h3 h4
    exact reqAux_error_at m m.templates 0 i t h1 h2 h3 h4

/-- C5 witness: a template whose question format mentions a
sentinel-lookalike and no field has both sets empty, and analysis fails
naming it. -/
theorem C5_witness :
    Model.req badModel =
      Except.error (Error.templateFormat
        { name := "C", qfmt := "xSeNtInEl", afmt := "" }) :=
  (C5_req_characterization badModel).2 0
    { name := "C", qfmt := "xSeNtInEl", afmt := "" }
    (by decide) (by decide) (by decide)
    (fun j t' hj _ => absurd hj (by omega))

/-- Unfolding one step of a consecutive-identifier block. -/
theorem consecInts_succ (a n : Nat) :
    consecInts a (n + 1) = ((a : Int)) :: consecInts (a + 1) n := by
  unfold consecInts
  rw [List.range_succ_eq_map]
  simp only [List.map_cons, Nat.add_zero, List.map_map]
  congr 1
  apply List.map_congr_left
  intro k _
  simp only [Function.comp_apply]
  exact congrArg _ (by omega)

/-- Adjacent consecutive blocks concatenate. -/
theorem consecInts_append (a n m : Nat) :
    consecInts a n ++ consecInts (a + n) m = consecInts a (n + m) := by
  induction n generalizing a with
  | zero => simp [consecInts]
  | succ n ih =>
    have h : n + 1 + m = (n + m) + 1 := by omega
    rw [h, consecInts_succ, consecInts_succ, List.cons_append]
    congr 1
    have h2 : a + (n + 1) = (a + 1) + n := by omega
    rw [h2, ← ih (a + 1)]

/-- Consecutive identifiers are strictly increasing. -/
theorem consecInts_pairwise_lt (a n : Nat) :
    (consecInts a n).Pairwise (· < ·) := by
  unfold consecInts
  refine List.Pairwise.map _ ?_ (List.pairwise_lt_range n)
  intro x y hxy
  exact_mod_cast Nat.add_lt_add_left hxy a

/-- Card-loop serialization: the generator advances by one per card, the
card row ids are the consecutive block starting at the incoming generator,
and every card row carries the shared timestamp. -/
theorem writeCards_spec (ts did nid : Int) :
    ∀ (cards : List Card) (gen : Nat),
      (writeCards cards ts did nid gen).2 = gen + cards.length ∧
      (writeCards cards ts did nid gen).1.map CardRow.id =
        consecInts gen cards.length ∧
      ∀ r ∈ (writeCards cards ts did nid gen).1, r.modTs = ts := by
  intro cards
  induction cards with
  | nil => intro gen; simp [writeCards, consecInts]
  | cons c cs ih =>
    intro gen
    obtain ⟨h1, h2, h3⟩ := ih (gen + 1)
    simp only [writeCards, write_card_to_db]
    refine ⟨?_, ?_, ?_⟩
    · rw [h1]
      simp only [List.length_cons]
      omega
    · rw [List.map_cons, h2, List.length_cons, consecInts_succ]
    · intro r hr
      rcases List.mem_cons.mp hr with h | h
      · subst h; rfl
      · exact h3 r h

/-- Note serialization: the note row takes the incoming generator value, its
card rows the following consecutive block, and all rows the shared
timestamp. -/
theorem note_write_spec (n : Note) (ts did : Int) (gen : Nat)
    (out : NoteRow × List CardRow × Nat)
    (h : n.write_to_db ts did gen = Except.ok out) :
    out.2.2 = gen + (n.cards.length + 1) ∧
    (out.1.id :: out.2.1.map CardRow.id) = consecInts gen (n.cards.length + 1) ∧
    out.1.modTs = ts ∧ ∀ r ∈ out.2.1, r.modTs = ts := by
  unfold Note.write_to_db at h
  split at h
  · cases h
  · simp only [Except.ok.injEq] at h
    subst h
    obtain ⟨h1, h2, h3⟩ := writeCards_spec ts did (gen : Int) n.cards (gen + 1)
    refine ⟨by rw [h1]; try omega, ?_, rfl, h3⟩
    rw [consecInts_succ, ← h2]

/-- Deck serialization: the rows of a deck's notes occupy exactly the
consecutive identifier block between the incoming and outgoing generator
values, all carrying the shared timestamp. -/
theorem deckNotesWrite_spec (ts did : Int) :
    ∀ (notes : List Note) (gen : Nat) (rows : List (NoteRow × List CardRow))
      (gen' : Nat),
      deckNotesWrite ts did notes gen = Except.ok (rows, gen') →
      gen ≤ gen' ∧ rowIds rows = consecInts gen (gen' - gen) ∧
      ∀ x ∈ rowMods rows, x = ts := by
  intro notes
  induction notes with
  | nil =>
    intro gen rows gen' h
    simp only [deckNotesWrite] at h
    cases h
    simp [rowIds, rowMods, consecInts]
  | cons n ns ih =>
    intro gen rows gen' h
    simp only [deckNotesWrite] at h
    split at h
    · cases h
    · rename_i row cardRows g1 hnote
      split at h
      · cases h
      · rename_i rest gmid hrest
        cases h
        obtain ⟨hg1, hids1, hmod1, hmods1⟩ :=
          note_write_spec n ts did gen (row, cardRows, g1) hnote
        obtain ⟨hle2, hids2, hmods2⟩ := ih _ _ _ hrest
        simp only at hg1 hids1 hmod1 hmods1
        refine ⟨by omega, ?_, ?_⟩
        · have hsplit : rowIds ((row, cardRows) :: rest) =
              (row.id :: cardRows.map CardRow.id) ++ rowIds rest := by
            simp [rowIds]
          rw [hsplit, hids1, hids2]
          have harith : gen + (n.cards.length + 1) = g1 := by omega
          rw [← harith, consecInts_append]
          congr 1
          omega
        · intro x hx
          have hsplit : rowMods ((row, cardRows) :: rest) =
              (row.modTs :: cardRows.map CardRow.modTs) ++ rowMods rest := by
            simp [rowMods]
          rw [hsplit] at hx
          rcases List.mem_append.mp hx with hx | hx
          · rcases List.mem_cons.mp hx with hx | hx
            · rw [hx, hmod1]
            · rcases List.mem_map.mp hx with ⟨r, hr, rfl⟩
              exact hmods1 r hr
          · exact hmods2 x hx

/-- Package serialization: one generator threads through every deck. -/
theorem packageWriteDecks_spec (ts : Int) :
    ∀ (decks : List Deck) (gen : Nat) (rows : List (NoteRow × List CardRow))
      (gen' : Nat),
      packageWriteDecks decks ts gen = Except.ok (rows, gen') →
      gen ≤ gen' ∧ rowIds rows = consecInts gen (gen' - gen) ∧
      ∀ x ∈ rowMods rows, x = ts := by
  intro decks
  induction decks with
  | nil =>
    intro gen rows gen' h
    simp only [packageWriteDecks] at h
    cases h
    simp [rowIds, rowMods, consecInts]
  | cons d ds ih =>
    intro gen rows gen' h
    simp only [packageWriteDecks] at h
    split at h
    · cases h
    · rename_i rows1 g1 hdeck
      split at h
      · cases h
      · rename_i rows2 gmid hrest
        cases h
        obtain ⟨hle1, hids1, hmods1⟩ :=
          deckNotesWrite_spec ts d.id d.notes gen rows1 g1 hdeck
        obtain ⟨hle2, hids2, hmods2⟩ := ih _ _ _ hrest
        refine ⟨by omega, ?_, ?_⟩
        · have hsplit : rowIds (rows1 ++ rows2) = rowIds rows1 ++ rowIds rows2 := by
            simp [rowIds]
          rw [hsplit, hids1, hids2]
          have harith : gen + (g1 - gen) = g1 := by omega
          have happ := consecInts_append gen (g1 - gen) (gen' - g1)
          rw [harith] at happ
          rw [happ]
          congr 1
          omega
        · intro x hx
          have hsplit : rowMods (rows1 ++ rows2) = rowMods rows1 ++ rowMods rows2 := by
            simp [rowMods]
          rw [hsplit] at hx
          rcases List.mem_append.mp hx with hx | hx
          · exact hmods1 x hx
          · exact hmods2 x hx

/-- C9: one export shares a single monotonically increasing generator across
all decks, notes and cards — the produced row identifiers form one
consecutive block starting at the generator's seed, hence are strictly
increasing in allocation order and pairwise distinct — and the single
captured timestamp is the modification value of every note row and card
row. -/
theorem C9_shared_generator (p : Package) (ts : ℚ)
    (rows : List (NoteRow × List CardRow))
    (h : p.write_to_db ts = Except.ok rows) :
    (∃ nrows, rowIds rows = consecInts (⌊ts * 1000⌋.toNat) nrows) ∧
    (rowIds rows).Pairwise (· < ·) ∧
    (rowIds rows).Pairwise (· ≠ ·) ∧
    List.Chain' (· < ·) (rowIds rows) ∧
    ∀ x ∈ rowMods rows, x = ⌊ts⌋ := by
  unfold Package.write_to_db at h
  split at h
  · cases h
  · rename_i rows1 g1 hpw
    cases h
    obtain ⟨hle, hids, hmods⟩ := packageWriteDecks_spec ⌊ts⌋ p.decks _ _ _ hpw
    refine ⟨⟨_, hids⟩, ?_, ?_, ?_, hmods⟩
    · rw [hids]
      exact consecInts_pairwise_lt _ _
    · rw [hids]
      exact (consecInts_pairwise_lt _ _).imp (fun h => ne_of_lt h)
    · rw [hids]
      exact (consecInts_pairwise_lt _ _).chain'

/-- C9 witness: the one-deck, one-note package exported at timestamp 17. -/
theorem C9_witness :
    (∃ nrows, rowIds demoRows = consecInts ((⌊(17 : ℚ) * 1000⌋).toNat) nrows) ∧
    (rowIds demoRows).Pairwise (· < ·) ∧
    (rowIds demoRows).Pairwise (· ≠ ·) ∧
    List.Chain' (· < ·) (rowIds demoRows) ∧
    ∀ x ∈ rowMods demoRows, x = ⌊(17 : ℚ)⌋ :=
  C9_shared_generator demoPackage 17 demoRows (by
    have h1 : (⌊(17 : ℚ)⌋) = 17 := by norm_num
    have h2 : (⌊(17 : ℚ) * 1000⌋) = 17000 := by norm_num
    unfold Package.write_to_db
    rw [h1, h2]
    decide)

end Genanki
